import Mathlib

/-!
Shallow embedding of the ext4 read-only driver (Rust sources: `dir.rs`,
`inode.rs`, `group.rs`, `superblock.rs`, `image.rs`, `lib.rs`).

Bytes are modelled as `Nat` values `< 256` produced by on-disk reads; buffers
are `List Nat`.  Rust panics (failed `assert!`, out-of-range slice indexing,
`unwrap` of a short cursor read, division by zero) are modelled as distinguished
`Err` constructors so that an aborting execution is observably different from a
returned `std::io::Error`.
-/

set_option maxRecDepth 100000

deriving instance DecidableEq for Except

namespace Ext4

/-- Error outcomes.  The first three constructors model `std::io::Error` values
that the Rust code returns to its caller; the `panic…` constructors model
process aborts (failed assertions, slice-index panics, `unwrap` panics,
division by zero), which never reach the caller as values. -/
inductive Err where
  | ioEof                      -- `read_exact` hit end of device (returned io error)
  | notADirectory (n : Nat)    -- `read_dir` on a non-directory inode (returned io error)
  | notFound (c : List Nat)    -- `resolve_path` component with no match (returned io error)
  | panicEof                   -- `unwrap` of a byteorder cursor read past the buffer end
  | panicAssert (msg : String) -- failed `assert!` / `assert_eq!`
  | panicIndex                 -- slice index out of range
  | panicDiv                   -- integer division by zero
  deriving DecidableEq, Repr

/-- Little-endian value of a byte list (first byte least significant),
as computed by `u16::from_le_bytes` / `u32::from_le_bytes`. -/
def leVal : List Nat → Nat
  | [] => 0
  | b :: bs => b + 256 * leVal bs

/-- Little-endian 16-bit field of buffer `b` at offset `p` (missing bytes read as 0). -/
def le16 (b : List Nat) (p : Nat) : Nat := b.getD p 0 + 256 * b.getD (p + 1) 0

/-- Little-endian 32-bit field of buffer `b` at offset `p` (missing bytes read as 0). -/
def le32 (b : List Nat) (p : Nat) : Nat := le16 b p + 65536 * le16 b (p + 2)

/-- Checked slice `buf[off..off+n]`: Rust range indexing panics when the range
end exceeds the slice length. -/
def bytesAt (buf : List Nat) (off n : Nat) : Except Err (List Nat) :=
  if off + n ≤ buf.length then .ok ((buf.drop off).take n) else .error .panicIndex

/-- Checked single-byte index `buf[i]`. -/
def byteAt (buf : List Nat) (i : Nat) : Except Err Nat :=
  if i < buf.length then .ok (buf.getD i 0) else .error .panicIndex

/-- Checked 16-bit little-endian cursor read at position `p`
(`read_u16::<LittleEndian>().unwrap()`: aborts past the buffer end). -/
def readU16At (b : List Nat) (p : Nat) : Except Err Nat :=
  if p + 2 ≤ b.length then .ok (le16 b p) else .error .panicEof

/-- Checked 32-bit little-endian cursor read at position `p`. -/
def readU32At (b : List Nat) (p : Nat) : Except Err Nat :=
  if p + 4 ≤ b.length then .ok (le32 b p) else .error .panicEof

/-! ### Directory entries (`dir.rs`) -/

/-- `DirectoryEntry` from `dir.rs`.  The `name` field keeps the raw name bytes
(`String::from_utf8_lossy(..).to_string()` in the source; on the valid UTF-8
names exercised here the lossy decoding is the identity on bytes). -/
structure DirectoryEntry where
  inode : Nat
  name : List Nat
  file_type : Nat
  deriving DecidableEq, Repr

/-- `DirectoryEntry::parse` from `dir.rs`.  Offsets: inode @0 (u32), rec_len @4
(u16), name_len @6 (u8), file_type @7 (u8), name bytes @8.  Returns
`.ok none` for a no-match, `.ok (some (entry, rec_len))` on success; the
`.error` outcomes model panics and are proved unreachable (claim C10). -/
def DirectoryEntry.parse (buf : List Nat) : Except Err (Option (DirectoryEntry × Nat)) :=
  if buf.length < 8 then .ok none
  else
    (bytesAt buf 0 4).bind fun inodeBytes =>
    (bytesAt buf 4 2).bind fun recBytes =>
    (byteAt buf 6).bind fun name_len =>
    (byteAt buf 7).bind fun file_type =>
    if leVal inodeBytes = 0 ∨ leVal recBytes = 0 ∨ buf.length < 8 + name_len ∨
        buf.length < leVal recBytes then .ok none
    else
      (bytesAt buf 8 name_len).bind fun nameBytes =>
      .ok (some ({ inode := leVal inodeBytes, name := nameBytes, file_type := file_type },
        leVal recBytes))

/-! ### Inodes and extents (`inode.rs`) -/

/-- Parsed extent-tree header: 12 bytes at the start of `i_block`. -/
structure ExtentHeader where
  magic : Nat
  entry_count : Nat
  max_entry_count : Nat
  tree_depth : Nat
  generation : Nat
  deriving DecidableEq, Repr

/-- `ExtentHeader::parse` from `inode.rs`: sequential cursor reads
(u16 magic, u16 entry_count, u16 max_entry_count, u16 tree_depth,
u32 generation), with `assert_eq!(magic, 0xf30a)` right after the first read. -/
def ExtentHeader.parse (b : List Nat) : Except Err ExtentHeader :=
  (readU16At b 0).bind fun magic =>
  if magic ≠ 0xf30a then .error (.panicAssert "Invalid extent header magic")
  else
    (readU16At b 2).bind fun entry_count =>
    (readU16At b 4).bind fun max_entry_count =>
    (readU16At b 6).bind fun tree_depth =>
    (readU32At b 8).bind fun generation =>
    .ok ⟨magic, entry_count, max_entry_count, tree_depth, generation⟩

/-- Leaf extent entry: 12 bytes per extent when tree depth is 0. -/
structure Extent where
  logical_block : Nat
  block_count : Nat
  start_block_hi : Nat
  start_block_lo : Nat
  deriving DecidableEq, Repr

/-- `Extent::parse` from `inode.rs`: sequential cursor reads u32/u16/u16/u32.
Its only caller hands it an exactly-12-byte slice (checked by `bytesAt`), on
which none of the four cursor reads can run past the end, so the function is
modelled total. -/
def Extent.parse (b : List Nat) : Extent :=
  ⟨leVal (b.take 4), leVal ((b.drop 4).take 2), leVal ((b.drop 6).take 2),
    leVal ((b.drop 8).take 4)⟩

/-- `Extent::physical_block_start`: `((start_block_hi as u64) << 32) | (start_block_lo as u64)`. -/
def Extent.physical_block_start (e : Extent) : Nat :=
  (e.start_block_hi <<< 32) ||| e.start_block_lo

/-- The physical-block run an extent covers, exactly as flattened by the inner
loop of `Inode::parse` (`for j in 0..extent.block_count { push(physical_start + j) }`). -/
def Extent.resolvedBlocks (e : Extent) : List Nat :=
  (List.range e.block_count).map (fun j => e.physical_block_start + j)

/-- Parsed inode (`inode.rs`, which assumes an extent-based layout).  `lib.rs`
refers to the mode field as `mode` and to the resolved block list as
`block_ptrs`; the spec's §4.4 identifies both with the fields decoded here. -/
structure Inode where
  inode_mode : Nat
  inode_size : Nat
  extent_blocks : List Nat
  extent_header : ExtentHeader
  extents : List Extent
  deriving DecidableEq, Repr

/-- The extent-entry loop of `Inode::parse`: for `i` in `0..entry_count`,
slice `i_block_raw[12 + i*12 .. 24 + i*12]` (a checked slice: out of range is
a panic) and decode it.  Structural recursion on the number of remaining
entries, with `i` the current loop index. -/
def parseExtents (raw : List Nat) : Nat → Nat → Except Err (List Extent)
  | 0, _ => .ok []
  | k + 1, i =>
    (bytesAt raw (12 + i * 12) 12).bind fun ebytes =>
    (parseExtents raw k (i + 1)).bind fun rest =>
    .ok (Extent.parse ebytes :: rest)

/-- `Inode::parse` from `inode.rs`: decode mode (@0x00 u16), size (@0x04 u32),
flags (@0x20 u32); `assert!` the extents flag 0x00080000; `read_exact` the
60-byte `i_block` region at 0x28 (unwrap: aborts on a short buffer); decode the
extent header from its first 12 bytes; `assert_eq!` tree depth 0; decode
`entry_count` leaf extents and flatten each into its covered block run. -/
def Inode.parse (b : List Nat) : Except Err Inode :=
  (readU16At b 0x00).bind fun inode_mode =>
  (readU32At b 0x04).bind fun inode_size =>
  (readU32At b 0x20).bind fun inode_flags =>
  if inode_flags &&& 0x00080000 = 0 then
    .error (.panicAssert "Expected inode with extents enabled")
  else if b.length < 0x28 + 60 then .error .panicEof
  else
    (ExtentHeader.parse (((b.drop 0x28).take 60).take 12)).bind fun hdr =>
    if hdr.tree_depth ≠ 0 then
      .error (.panicAssert "Extent trees with depth > 0 are not supported")
    else
      (parseExtents ((b.drop 0x28).take 60) hdr.entry_count 0).bind fun extents =>
      .ok ⟨inode_mode, inode_size, extents.flatMap Extent.resolvedBlocks, hdr, extents⟩

/-! ### Superblock, device and filesystem state (`superblock.rs`, `group.rs`,
`image.rs`, `lib.rs`)

The backing `File` is modelled as immutable byte contents (`data`, `size`)
plus the mutable seek position stored in the `FileSystem` state.  An operation
of the Rust `impl FileSystem` (`&mut self`) becomes a state-passing function
`M α = FileSystem → Except Err α × FileSystem`; Rust's `?` operator is `mBind`. -/

structure Device where
  data : Nat → Nat
  size : Nat

/-- `Superblock` from `superblock.rs` (decoded fields only). -/
structure Superblock where
  inodes_count : Nat
  blocks_count : Nat
  log_block_size : Nat
  inodes_per_group : Nat
  inode_size : Nat
  volume_name : List Nat

/-- `Superblock::block_size`: `1024 << log_block_size`. -/
def Superblock.block_size (sb : Superblock) : Nat := 1024 <<< sb.log_block_size

structure FileSystem where
  dev : Device
  pos : Nat
  superblock : Superblock

def M (α : Type) : Type := FileSystem → Except Err α × FileSystem

def mPure {α : Type} (a : α) : M α := fun fs => (.ok a, fs)

def mThrow {α : Type} (e : Err) : M α := fun fs => (.error e, fs)

/-- Lift a pure parse result into the state-passing form. -/
def mLift {α : Type} (r : Except Err α) : M α := fun fs => (r, fs)

/-- Read a pure function of the current state (`self.superblock.…`). -/
def mGets {α : Type} (f : FileSystem → α) : M α := fun fs => (.ok (f fs), fs)

def mBind {α β : Type} (x : M α) (f : α → M β) : M β := fun fs =>
  match x fs with
  | (.ok a, fs') => f a fs'
  | (.error e, fs') => (.error e, fs')

/-- `seek(SeekFrom::Start(off))` followed by `read_exact` of `n` bytes
(`read_block` in `image.rs` and the inline seek-and-read sequences in
`lib.rs`): the seek sets the position; the read returns exactly `n` bytes or
an io error when fewer are available. -/
def seekRead (off n : Nat) : M (List Nat) := fun fs =>
  if off + n ≤ fs.dev.size then
    (.ok ((List.range n).map (fun i => fs.dev.data (off + i))), { fs with pos := off + n })
  else (.error .ioEof, { fs with pos := off })

/-- `GroupDescriptor` from `group.rs`: only `inode_table_block` (u32 at 0x08). -/
structure GroupDescriptor where
  inode_table_block : Nat
  deriving DecidableEq, Repr

/-- `GroupDescriptor::parse`: cursor to position 8, one u32 read. -/
def GroupDescriptor.parse (b : List Nat) : Except Err GroupDescriptor :=
  (readU32At b 8).bind fun v => .ok ⟨v⟩

/-- `FileSystem::summary`: renders the superblock's fields
(`Display for Superblock` interpolates exactly these values); `&self` only. -/
def FileSystem.summary : M (List Nat × Nat × Nat × Nat × Nat × Nat) :=
  mGets fun fs =>
    (fs.superblock.volume_name, fs.superblock.inodes_count, fs.superblock.inodes_per_group,
      fs.superblock.blocks_count, fs.superblock.block_size, fs.superblock.inode_size)

/-- `FileSystem::read_group_desc`: descriptor table at byte 2048 for 1024-byte
blocks, else at byte `block_size`; descriptor `g` is 32 bytes at
`table + g * 32`. -/
def FileSystem.read_group_desc (g : Nat) : M GroupDescriptor :=
  mBind (mGets (fun fs => fs.superblock.block_size)) fun bs =>
  mBind (seekRead ((if bs = 1024 then 2048 else bs) + g * 32) 32) fun buf =>
  mLift (GroupDescriptor.parse buf)

/-- `FileSystem::read_inode`: `idx = inode_num - 1`; `group = idx / ipg`,
`local = idx % ipg` (u32 division: a zero `inodes_per_group` aborts); read the
group descriptor, then `inode_size` bytes at
`inode_table_block * block_size + local * inode_size`, and parse them. -/
def FileSystem.read_inode (n : Nat) : M Inode :=
  mBind (mGets (fun fs => fs.superblock.block_size)) fun block_size =>
  mBind (mGets (fun fs => fs.superblock.inode_size)) fun inode_size =>
  mBind (mGets (fun fs => fs.superblock.inodes_per_group)) fun ipg =>
  if ipg = 0 then mThrow .panicDiv
  else
    mBind (FileSystem.read_group_desc ((n - 1) / ipg)) fun gd =>
    mBind (seekRead (gd.inode_table_block * block_size + ((n - 1) % ipg) * inode_size)
      inode_size) fun buf =>
    mLift (Inode.parse buf)

/-- The in-block scan loop of `read_dir`: starting at cursor 0, repeatedly
parse at `buf[cursor..]` and advance by the consumed `rec_len`, stopping when
the cursor reaches `block_size` (= `buf.length`) or a record fails to decode.
`fuel` bounds the iteration count for structural recursion: each iteration
advances the cursor by `rec_len ≥ 1`, so `buf.length + 1` iterations always
suffice and the fuel-exhausted branch is never taken by the caller. -/
def scanBlock (buf : List Nat) : Nat → Nat → Except Err (List DirectoryEntry)
  | 0, _ => .ok []
  | fuel + 1, cursor =>
    if cursor < buf.length then
      match DirectoryEntry.parse (buf.drop cursor) with
      | .ok (some (e, rl)) => (scanBlock buf fuel (cursor + rl)).bind fun rest => .ok (e :: rest)
      | .ok none => .ok []
      | .error er => .error er
    else .ok []

/-- The block loop of `read_dir`: for each block number, skip it when
`block == 0 || block > 8192`, otherwise read one `block_size`-byte block and
scan it; results are concatenated in block-list order. -/
def readDirBlocks (bs : Nat) : List Nat → M (List DirectoryEntry)
  | [] => mPure []
  | blk :: rest =>
    if blk = 0 ∨ blk > 8192 then readDirBlocks bs rest
    else
      mBind (seekRead (blk * bs) bs) fun buf =>
      mBind (mLift (scanBlock buf (buf.length + 1) 0)) fun es =>
      mBind (readDirBlocks bs rest) fun esRest =>
      mPure (es ++ esRest)

/-- `FileSystem::read_dir`: read the inode; if `mode & 0xF000 != 0x4000`
return the not-a-directory io error; otherwise scan the inode's resolved
block list (`inode.block_ptrs` in `lib.rs` = the resolved physical blocks). -/
def FileSystem.read_dir (n : Nat) : M (List DirectoryEntry) :=
  mBind (FileSystem.read_inode n) fun ino =>
  if ino.inode_mode &&& 0xF000 ≠ 0x4000 then mThrow (.notADirectory n)
  else
    mBind (mGets (fun fs => fs.superblock.block_size)) fun bs =>
    readDirBlocks bs ino.extent_blocks

/-- Rust `str::split('/')` on the path bytes (47 = `'/'`): splitting an empty
string gives one empty piece, and every separator ends the current piece. -/
def splitByte : List Nat → List (List Nat)
  | [] => [[]]
  | b :: rest =>
    if b = 47 then [] :: splitByte rest
    else
      match splitByte rest with
      | [] => [[b]]
      | c :: cs => (b :: c) :: cs

/-- `path.split('/').filter(|s| !s.is_empty())`. -/
def pathComponents (p : List Nat) : List (List Nat) :=
  (splitByte p).filter (fun c => c ≠ [])

/-- The per-component loop of `resolve_path`: list the current directory,
`find` the entry whose name equals the component, fail with the not-found io
error naming the component when absent, descend into the matched inode; after
the last component, read and return the final inode. -/
def walkPath : List (List Nat) → Nat → M Inode
  | [], n => FileSystem.read_inode n
  | c :: rest, n =>
    mBind (FileSystem.read_dir n) fun es =>
    match es.find? (fun e => e.name == c) with
    | some e => walkPath rest e.inode
    | none => mThrow (.notFound c)

/-- `FileSystem::resolve_path`: the root inode number is 2; the literal path
`"/"` returns the root inode directly; otherwise walk the non-empty
slash-separated components from inode 2. -/
def FileSystem.resolve_path (p : List Nat) : M Inode :=
  if p = [47] then FileSystem.read_inode 2
  else walkPath (pathComponents p) 2

/-! ### Superblock-preservation infrastructure (claim C9) -/

/-- One post-`open` call of the public/query surface of `impl FileSystem`. -/
inductive Op where
  | summaryOp
  | readInodeOp (n : Nat)
  | readGroupDescOp (g : Nat)
  | readDirOp (n : Nat)
  | resolvePathOp (p : List Nat)

/-- State left behind by one operation (its result value discarded). -/
def runOp : Op → FileSystem → FileSystem
  | .summaryOp, fs => (FileSystem.summary fs).2
  | .readInodeOp n, fs => (FileSystem.read_inode n fs).2
  | .readGroupDescOp g, fs => (FileSystem.read_group_desc g fs).2
  | .readDirOp n, fs => (FileSystem.read_dir n fs).2
  | .resolvePathOp p, fs => (FileSystem.resolve_path p fs).2

def runAll (ops : List Op) (fs : FileSystem) : FileSystem :=
  ops.foldl (fun s op => runOp op s) fs

/-- An operation never changes the stored superblock (only the seek position). -/
def preservesSB {α : Type} (x : M α) : Prop :=
  ∀ fs, ((x fs).2).superblock = fs.superblock

/-! ### A concrete 1024-byte-block filesystem image (zero elsewhere)

Layout: superblock at byte 1024 (32 inodes, 16 per group, inode size 128,
`log_block_size = 0`); group descriptor 0 at byte 2048 with inode table at
block 4 (byte 4096).  Inode 2 is the root directory with one extent covering
block 5, which holds entries `"a" → inode 3` (regular file) and
`"big" → inode 4`; inode 3 is a regular file with no extents; inode 4 is a
directory whose single extent covers block 9000, which holds the valid entry
`"x" → inode 3`. -/

def mkDisk (segs : List (Nat × List Nat)) : Nat → Nat := fun off =>
  segs.foldr
    (fun seg acc =>
      if seg.1 ≤ off ∧ off < seg.1 + seg.2.length then seg.2.getD (off - seg.1) 0 else acc) 0

def imgSegs : List (Nat × List Nat) :=
  [ (1024, [32, 0, 0, 0, 0, 64, 0, 0]),
    (1024 + 0x28, [16, 0, 0, 0]),
    (1024 + 0x58, [128, 0]),
    (1024 + 0x78, [116, 101, 115, 116]),
    (2048 + 8, [4, 0, 0, 0]),
    (4224, [237, 65]),
    (4224 + 0x20, [0, 0, 8, 0]),
    (4224 + 0x28, [10, 243, 1, 0, 4, 0, 0, 0, 0, 0, 0, 0, 0, 0, 0, 0, 1, 0, 0, 0, 5, 0, 0, 0]),
    (4352, [164, 129]),
    (4352 + 0x20, [0, 0, 8, 0]),
    (4352 + 0x28, [10, 243, 0, 0, 4, 0, 0, 0, 0, 0, 0, 0]),
    (4480, [237, 65]),
    (4480 + 0x20, [0, 0, 8, 0]),
    (4480 + 0x28, [10, 243, 1, 0, 4, 0, 0, 0, 0, 0, 0, 0, 0, 0, 0, 0, 1, 0, 0, 0, 40, 35, 0, 0]),
    (5120, [3, 0, 0, 0, 12, 0, 1, 1, 97, 0, 0, 0, 4, 0, 0, 0, 12, 0, 3, 2, 98, 105, 103, 0]),
    (9216000, [3, 0, 0, 0, 12, 0, 1, 1, 120, 0, 0, 0]) ]

def img : FileSystem :=
  ⟨⟨mkDisk imgSegs, 9217024⟩, 0, ⟨32, 16384, 0, 16, 128, [116, 101, 115, 116]⟩⟩

/-! ### Bridging lemmas: sliced cursor reads versus whole-buffer field offsets -/

theorem getD_drop (l : List Nat) (m i : Nat) : (l.drop m).getD i 0 = l.getD (m + i) 0 := by
  simp [List.getD_eq_getElem?_getD, List.getElem?_drop]

theorem getD_take (l : List Nat) (n i : Nat) (h : i < n) :
    (l.take n).getD i 0 = l.getD i 0 := by
  simp [List.getD_eq_getElem?_getD, List.getElem?_take, h]

theorem leVal_take_two (l : List Nat) : leVal (l.take 2) = le16 l 0 := by
  match l with
  | [] => simp [leVal, le16, List.getD]
  | [a] => simp [leVal, le16, List.getD]
  | a :: b :: t => simp [leVal, le16, List.getD]

theorem leVal_take_four (l : List Nat) : leVal (l.take 4) = le32 l 0 := by
  match l with
  | [] => simp [leVal, le16, le32, List.getD]
  | [a] => simp [leVal, le16, le32, List.getD]; try ring
  | [a, b] => simp [leVal, le16, le32, List.getD]; try ring
  | [a, b, c] => simp [leVal, le16, le32, List.getD]; try ring
  | a :: b :: c :: d :: t => simp [leVal, le16, le32, List.getD]; try ring

theorem le16_drop (l : List Nat) (m p : Nat) : le16 (l.drop m) p = le16 l (m + p) := by
  simp [le16, getD_drop, Nat.add_assoc]

theorem le32_drop (l : List Nat) (m p : Nat) : le32 (l.drop m) p = le32 l (m + p) := by
  simp [le32, le16_drop, Nat.add_assoc]

theorem le16_take (l : List Nat) (n p : Nat) (h : p + 2 ≤ n) : le16 (l.take n) p = le16 l p := by
  unfold le16
  rw [getD_take _ _ _ (by omega : p < n), getD_take _ _ _ (by omega : p + 1 < n)]

theorem le32_take (l : List Nat) (n p : Nat) (h : p + 4 ≤ n) : le32 (l.take n) p = le32 l p := by
  unfold le32
  rw [le16_take _ _ _ (by omega : p + 2 ≤ n), le16_take _ _ _ (by omega : p + 2 + 2 ≤ n)]

/-- Full characterization of `DirectoryEntry.parse` in terms of the raw field
decoders: it never aborts, returns no-match exactly under the five documented
conditions, and otherwise returns the decoded entry plus `rec_len`. -/
theorem DirectoryEntry.parse_eq (buf : List Nat) :
    DirectoryEntry.parse buf =
      if buf.length < 8 then .ok none
      else if le32 buf 0 = 0 ∨ le16 buf 4 = 0 ∨ buf.length < 8 + buf.getD 6 0 ∨
          buf.length < le16 buf 4 then .ok none
      else .ok (some (DirectoryEntry.mk (le32 buf 0) ((buf.drop 8).take (buf.getD 6 0))
          (buf.getD 7 0), le16 buf 4)) := by
  unfold DirectoryEntry.parse
  by_cases h8 : buf.length < 8
  · simp [h8]
  · rw [if_neg h8, if_neg h8]
    rw [bytesAt, if_pos (by omega), Except.bind]
    rw [bytesAt, if_pos (by omega), Except.bind]
    rw [byteAt, if_pos (by omega), Except.bind]
    rw [byteAt, if_pos (by omega), Except.bind]
    have h4 : leVal ((buf.drop 0).take 4) = le32 buf 0 := by
      rw [List.drop_zero, leVal_take_four]
    have h2 : leVal ((buf.drop 4).take 2) = le16 buf 4 := by
      rw [leVal_take_two, le16_drop, Nat.add_zero]
    rw [h4, h2]
    split
    · rfl
    · next hv => rw [bytesAt, if_pos (by omega), Except.bind]

/-- C1: `DirectoryEntry::parse` returns no match exactly when the buffer is
shorter than 8 bytes, or the decoded inode is 0, or the decoded rec_len is 0,
or the buffer is shorter than `8 + name_len`, or the buffer is shorter than
`rec_len`; otherwise it returns the decoded entry (inode, name, file_type)
together with `rec_len` as the number of bytes consumed. -/
theorem c1_dir_parse (buf : List Nat) :
    (DirectoryEntry.parse buf = .ok none ↔
      buf.length < 8 ∨ le32 buf 0 = 0 ∨ le16 buf 4 = 0 ∨ buf.length < 8 + buf.getD 6 0 ∨
        buf.length < le16 buf 4) ∧
    (¬ buf.length < 8 → ¬ le32 buf 0 = 0 → ¬ le16 buf 4 = 0 → ¬ buf.length < 8 + buf.getD 6 0 →
      ¬ buf.length < le16 buf 4 →
      DirectoryEntry.parse buf =
        .ok (some (DirectoryEntry.mk (le32 buf 0) ((buf.drop 8).take (buf.getD 6 0))
          (buf.getD 7 0), le16 buf 4))) := by
  constructor
  · rw [DirectoryEntry.parse_eq]
    split_ifs with h8 hv
    · simp [h8]
    · exact iff_of_true rfl (Or.inr hv)
    · exact iff_of_false (by simp) (by tauto)
  · intro h1 h2 h3 h4 h5
    rw [DirectoryEntry.parse_eq, if_neg h1, if_neg (by tauto)]

/-- C1 witness: the record `{inode=5, name="foo", file_type=1, rec_len=12}`
decodes back to itself with 12 bytes consumed. -/
theorem c1_dir_parse_witness :
    DirectoryEntry.parse [5, 0, 0, 0, 12, 0, 3, 1, 102, 111, 111, 0] =
      .ok (some (DirectoryEntry.mk 5 [102, 111, 111] 1, 12)) := by
  have h := (c1_dir_parse [5, 0, 0, 0, 12, 0, 3, 1, 102, 111, 111, 0]).2
    (by decide) (by decide) (by decide) (by decide) (by decide)
  rw [h]; decide

/-- C10: `DirectoryEntry::parse` is total on arbitrary byte buffers: it always
returns (`.ok` with) either no match or a decoded entry, and never reaches an
out-of-bounds slice access or any other panic (modelled by `.error`). -/
theorem c10_dir_parse_total (buf : List Nat) : ∃ r, DirectoryEntry.parse buf = .ok r := by
  rw [DirectoryEntry.parse_eq]
  split_ifs <;> exact ⟨_, rfl⟩

/-- C6 counterexample: a 20-byte buffer with `rec_len = 9` and `name_len = 10`
parses successfully, yet `8 + name_len = 18` does not fit within
`rec_len = 9` — the code never compares `8 + name_len` against `rec_len`. -/
theorem c6_counterexample :
    DirectoryEntry.parse ([1, 0, 0, 0, 9, 0, 10, 1] ++ List.replicate 12 0) =
      .ok (some (DirectoryEntry.mk 1 (List.replicate 10 0) 1, 9)) ∧
    ¬ (8 + (List.replicate 10 (0 : Nat)).length ≤ 9) := by
  constructor
  · decide
  · decide

/-- C6 (amended): every entry successfully produced by `DirectoryEntry::parse`
has `8 + name_len` within the containing buffer and `rec_len` within the
containing buffer (the code does not enforce `8 + name_len ≤ rec_len`). -/
theorem c6_entry_fits_buffer (buf : List Nat) (e : DirectoryEntry) (rl : Nat)
    (h : DirectoryEntry.parse buf = .ok (some (e, rl))) :
    8 + e.name.length ≤ buf.length ∧ rl ≤ buf.length := by
  rw [DirectoryEntry.parse_eq] at h
  split_ifs at h with h8 hv
  · simp at h
  · simp at h
  · rw [Except.ok.injEq, Option.some.injEq, Prod.mk.injEq] at h
    obtain ⟨he, hrl⟩ := h
    have hn : e.name.length = min (buf.getD 6 0) (buf.length - 8) := by
      rw [← he]
      simp [List.length_take, List.length_drop]
    constructor
    · omega
    · omega

/-- C6 witness: the amended bound evaluated on a concrete valid entry. -/
theorem c6_entry_fits_buffer_witness :
    8 + (DirectoryEntry.mk 5 [102, 111, 111] 1).name.length ≤
      ([5, 0, 0, 0, 12, 0, 3, 1, 102, 111, 111, 0] : List Nat).length ∧
    12 ≤ ([5, 0, 0, 0, 12, 0, 3, 1, 102, 111, 111, 0] : List Nat).length :=
  c6_entry_fits_buffer [5, 0, 0, 0, 12, 0, 3, 1, 102, 111, 111, 0]
    (DirectoryEntry.mk 5 [102, 111, 111] 1) 12 (by decide)

/-- C2: a leaf extent resolves to exactly `block_count` consecutive physical
block numbers starting at `(start_block_hi << 32) | start_block_lo`; in
particular `{logical_block=0, block_count=3, start_block_hi=0,
start_block_lo=100}` resolves to `[100, 101, 102]`. -/
theorem c2_extent_resolution :
    (∀ e : Extent, (Extent.resolvedBlocks e).length = e.block_count ∧
      ∀ j, j < e.block_count →
        (Extent.resolvedBlocks e)[j]? =
          some (((e.start_block_hi <<< 32) ||| e.start_block_lo) + j)) ∧
    Extent.resolvedBlocks (Extent.mk 0 3 0 100) = [100, 101, 102] := by
  constructor
  · intro e
    constructor
    · simp [Extent.resolvedBlocks]
    · intro j hj
      simp [Extent.resolvedBlocks, List.getElem?_map, List.getElem?_range hj,
        Extent.physical_block_start]
  · decide

/-- C2 witness: the second resolved block of the concrete extent is
`((0 << 32) | 100) + 1 = 101`. -/
theorem c2_extent_resolution_witness :
    (Extent.resolvedBlocks (Extent.mk 0 3 0 100))[1]? = some (((0 <<< 32) ||| 100) + 1) :=
  (c2_extent_resolution.1 (Extent.mk 0 3 0 100)).2 1 (by decide)

/-- C3 counterexample: a 128-byte all-zero raw inode has the extents flag
clear, and `Inode::parse` does not succeed on it with 15 raw block pointers —
it aborts on `assert!(inode_flags & EXT4_EXTENTS_FLAG != 0)`.  No
direct-pointer decoding path exists in `inode.rs`. -/
theorem c3_counterexample :
    Inode.parse (List.replicate 128 0) =
      .error (.panicAssert "Expected inode with extents enabled") := by decide

/-- C3 (amended): for every raw inode whose flags field (u32 LE at 0x20) has
bit 0x00080000 clear (and that is long enough for the mode/size/flags reads),
decoding does not succeed: it aborts with the extents-flag assertion, since
the code supports only extent-mapped inodes. -/
theorem c3_no_extents_flag_panics (b : List Nat) (hlen : 0x24 ≤ b.length)
    (hflag : le32 b 0x20 &&& 0x00080000 = 0) :
    Inode.parse b = .error (.panicAssert "Expected inode with extents enabled") := by
  unfold Inode.parse
  rw [readU16At, if_pos (by omega), Except.bind]
  rw [readU32At, if_pos (by omega), Except.bind]
  rw [readU32At, if_pos (by omega), Except.bind]
  rw [if_pos hflag]

/-- C3 witness: the amended statement evaluated on the all-zero raw inode. -/
theorem c3_no_extents_flag_panics_witness :
    Inode.parse (List.replicate 128 0) =
      .error (.panicAssert "Expected inode with extents enabled") :=
  c3_no_extents_flag_panics (List.replicate 128 0) (by decide) (by decide)

/-- C5 counterexample: a 128-byte extent-flagged raw inode whose extent header
magic is 0x1234 makes `Inode::parse` abort via
`assert_eq!(magic, 0xf30a, "Invalid extent header magic")` — a panic, not a
`MalformedInode` error value returned to the caller (the code returns only
`std::io::Error` values; assertion failures abort). -/
theorem c5_counterexample :
    Inode.parse (List.replicate 32 0 ++ [0, 0, 8, 0] ++ List.replicate 4 0 ++ [52, 18] ++
        List.replicate 86 0) =
      .error (.panicAssert "Invalid extent header magic") := by decide

/-- C5 (amended): for every extent-flagged raw inode (of sufficient length for
the fixed reads) whose 12-byte extent header has a magic field different from
0xF30A, decoding fails by aborting with the "Invalid extent header magic"
assertion rather than returning a typed error. -/
theorem c5_bad_magic_panics (b : List Nat) (hlen : 100 ≤ b.length)
    (hflag : le32 b 0x20 &&& 0x00080000 ≠ 0) (hmagic : le16 b 0x28 ≠ 0xf30a) :
    Inode.parse b = .error (.panicAssert "Invalid extent header magic") := by
  unfold Inode.parse
  rw [readU16At, if_pos (by omega), Except.bind]
  rw [readU32At, if_pos (by omega), Except.bind]
  rw [readU32At, if_pos (by omega), Except.bind]
  rw [if_neg hflag, if_neg (by omega)]
  have hm : le16 (((b.drop 0x28).take 60).take 12) 0 = le16 b 0x28 := by
    rw [le16_take _ _ _ (by omega), le16_take _ _ _ (by omega), le16_drop, Nat.add_zero]
  unfold ExtentHeader.parse
  rw [readU16At, if_pos (by simp [List.length_take, List.length_drop]; omega), Except.bind, hm,
    if_pos hmagic]
  rfl

/-- C5 witness: the amended statement evaluated on the concrete bad-magic inode. -/
theorem c5_bad_magic_panics_witness :
    Inode.parse (List.replicate 32 0 ++ [0, 0, 8, 0] ++ List.replicate 4 0 ++ [52, 18] ++
        List.replicate 86 0) =
      .error (.panicAssert "Invalid extent header magic") :=
  c5_bad_magic_panics _ (by decide) (by decide) (by decide)

theorem preservesSB_mPure {α : Type} (a : α) : preservesSB (mPure a) := fun _ => rfl

theorem preservesSB_mThrow {α : Type} (e : Err) : preservesSB (mThrow (α := α) e) := fun _ => rfl

theorem preservesSB_mLift {α : Type} (r : Except Err α) : preservesSB (mLift r) := fun _ => rfl

theorem preservesSB_mGets {α : Type} (f : FileSystem → α) : preservesSB (mGets f) := fun _ => rfl

theorem preservesSB_seekRead (off n : Nat) : preservesSB (seekRead off n) := by
  intro fs
  unfold seekRead
  split <;> rfl

theorem preservesSB_mBind {α β : Type} (x : M α) (f : α → M β)
    (hx : preservesSB x) (hf : ∀ a, preservesSB (f a)) : preservesSB (mBind x f) := by
  intro fs
  unfold mBind
  cases hx2 : x fs with
  | mk r fs' =>
    have hsx := hx fs
    rw [hx2] at hsx
    cases r with
    | ok a => rw [hf a fs']; exact hsx
    | error e => exact hsx

theorem preservesSB_ite {α : Type} (c : Prop) [Decidable c] (x y : M α)
    (hx : preservesSB x) (hy : preservesSB y) : preservesSB (if c then x else y) := by
  split
  · exact hx
  · exact hy

theorem preservesSB_read_group_desc (g : Nat) : preservesSB (FileSystem.read_group_desc g) := by
  unfold FileSystem.read_group_desc
  exact preservesSB_mBind _ _ (preservesSB_mGets _) fun bs =>
    preservesSB_mBind _ _ (preservesSB_seekRead _ _) fun buf => preservesSB_mLift _

theorem preservesSB_read_inode (n : Nat) : preservesSB (FileSystem.read_inode n) := by
  unfold FileSystem.read_inode
  refine preservesSB_mBind _ _ (preservesSB_mGets _) fun bsz =>
    preservesSB_mBind _ _ (preservesSB_mGets _) fun isz =>
    preservesSB_mBind _ _ (preservesSB_mGets _) fun ipg =>
    preservesSB_ite _ _ _ (preservesSB_mThrow _) ?_
  exact preservesSB_mBind _ _ (preservesSB_read_group_desc _) fun gd =>
    preservesSB_mBind _ _ (preservesSB_seekRead _ _) fun buf => preservesSB_mLift _

theorem preservesSB_readDirBlocks (bs : Nat) (blocks : List Nat) :
    preservesSB (readDirBlocks bs blocks) := by
  induction blocks with
  | nil => exact preservesSB_mPure _
  | cons blk rest ih =>
    unfold readDirBlocks
    refine preservesSB_ite _ _ _ ih ?_
    exact preservesSB_mBind _ _ (preservesSB_seekRead _ _) fun buf =>
      preservesSB_mBind _ _ (preservesSB_mLift _) fun es =>
      preservesSB_mBind _ _ ih fun esRest => preservesSB_mPure _

theorem preservesSB_read_dir (n : Nat) : preservesSB (FileSystem.read_dir n) := by
  unfold FileSystem.read_dir
  refine preservesSB_mBind _ _ (preservesSB_read_inode _) fun ino =>
    preservesSB_ite _ _ _ (preservesSB_mThrow _) ?_
  exact preservesSB_mBind _ _ (preservesSB_mGets _) fun bs => preservesSB_readDirBlocks _ _

theorem preservesSB_walkPath (cs : List (List Nat)) (n : Nat) :
    preservesSB (walkPath cs n) := by
  induction cs generalizing n with
  | nil => exact preservesSB_read_inode _
  | cons c rest ih =>
    unfold walkPath
    refine preservesSB_mBind _ _ (preservesSB_read_dir _) fun es => ?_
    cases es.find? (fun e => e.name == c) with
    | some e => exact ih _
    | none => exact preservesSB_mThrow _

theorem preservesSB_resolve_path (p : List Nat) : preservesSB (FileSystem.resolve_path p) := by
  unfold FileSystem.resolve_path
  exact preservesSB_ite _ _ _ (preservesSB_read_inode _) (preservesSB_walkPath _ _)

theorem runOp_superblock (op : Op) (fs : FileSystem) :
    (runOp op fs).superblock = fs.superblock := by
  cases op with
  | summaryOp => exact preservesSB_mGets _ fs
  | readInodeOp n => exact preservesSB_read_inode n fs
  | readGroupDescOp g => exact preservesSB_read_group_desc g fs
  | readDirOp n => exact preservesSB_read_dir n fs
  | resolvePathOp p => exact preservesSB_resolve_path p fs

/-- C9: every sequence of post-`open` operations (`summary`, `read_inode`,
`read_group_desc`, `read_dir`, `resolve_path`), succeeding or failing, leaves
the stored superblock — and hence `block_size()`, `inode_size`,
`inodes_per_group`, `inodes_count`, `blocks_count` and `volume_name` —
unchanged; only the seek position of the device handle may differ. -/
theorem c9_superblock_frame (ops : List Op) (fs : FileSystem) :
    (runAll ops fs).superblock = fs.superblock ∧
    (runAll ops fs).superblock.block_size = fs.superblock.block_size ∧
    (runAll ops fs).superblock.inode_size = fs.superblock.inode_size ∧
    (runAll ops fs).superblock.inodes_per_group = fs.superblock.inodes_per_group ∧
    (runAll ops fs).superblock.inodes_count = fs.superblock.inodes_count ∧
    (runAll ops fs).superblock.blocks_count = fs.superblock.blocks_count ∧
    (runAll ops fs).superblock.volume_name = fs.superblock.volume_name := by
  have h : (runAll ops fs).superblock = fs.superblock := by
    induction ops generalizing fs with
    | nil => rfl
    | cons op rest ih =>
      show (runAll rest (runOp op fs)).superblock = fs.superblock
      rw [ih (runOp op fs), runOp_superblock]
  exact ⟨h, by rw [h], by rw [h], by rw [h], by rw [h], by rw [h], by rw [h]⟩

/-- C7: whenever `read_inode` succeeds and the inode's mode has a type nibble
other than 0x4, `read_dir` on that inode number fails with the
not-a-directory error and returns no entries. -/
theorem c7_read_dir_not_a_directory (fs : FileSystem) (n : Nat) (ino : Inode)
    (h : (FileSystem.read_inode n fs).1 = .ok ino)
    (hmode : ino.inode_mode &&& 0xF000 ≠ 0x4000) :
    (FileSystem.read_dir n fs).1 = .error (.notADirectory n) := by
  rcases hri : FileSystem.read_inode n fs with ⟨r, fs'⟩
  rw [hri] at h
  simp only at h
  subst h
  unfold FileSystem.read_dir mBind
  rw [hri]
  simp [mThrow, hmode]

/-- C7 witness: inode 3 of the concrete image is a regular file
(mode 0x81A4), and `read_dir 3` fails with the not-a-directory error. -/
theorem c7_read_dir_not_a_directory_witness :
    (FileSystem.read_dir 3 img).1 = .error (.notADirectory 3) :=
  c7_read_dir_not_a_directory img 3
    ⟨0x81A4, 0, [], ⟨0xf30a, 0, 4, 0, 0⟩, []⟩ (by decide) (by decide)

/-- C8: for paths other than the literal `"/"`, `resolve_path` depends only on
the sequence of non-empty slash-separated components; and a component with no
byte-for-byte matching directory entry fails with the not-found error naming
that component. -/
theorem c8_resolve_path_components :
    (∀ (fs : FileSystem) (p q : List Nat), p ≠ [47] → q ≠ [47] →
      pathComponents p = pathComponents q →
      FileSystem.resolve_path p fs = FileSystem.resolve_path q fs) ∧
    (∀ (fs : FileSystem) (n : Nat) (c : List Nat) (rest : List (List Nat))
      (es : List DirectoryEntry), (FileSystem.read_dir n fs).1 = .ok es →
      (∀ e ∈ es, e.name ≠ c) →
      (walkPath (c :: rest) n fs).1 = .error (.notFound c)) := by
  constructor
  · intro fs p q hp hq hc
    unfold FileSystem.resolve_path
    rw [if_neg hp, if_neg hq, hc]
  · intro fs n c rest es h hne
    rcases hrd : FileSystem.read_dir n fs with ⟨r, fs'⟩
    rw [hrd] at h
    simp only at h
    subst h
    unfold walkPath mBind
    rw [hrd]
    have hf : es.find? (fun e => e.name == c) = none := by
      rw [List.find?_eq_none]
      intro x hx
      simp [hne x hx]
    simp [hf, mThrow]

/-- C8 witness: on the concrete image, `"/a"` and `"//a/"` resolve
identically, and the missing component `"zz"` under the root directory fails
with the not-found error naming it. -/
theorem c8_resolve_path_components_witness :
    FileSystem.resolve_path [47, 97] img = FileSystem.resolve_path [47, 47, 97, 47] img ∧
    (walkPath [[122, 122]] 2 img).1 = .error (.notFound [122, 122]) := by
  constructor
  · exact c8_resolve_path_components.1 img [47, 97] [47, 47, 97, 47]
      (by decide) (by decide) (by decide)
  · exact c8_resolve_path_components.2 img 2 [122, 122] []
      [⟨3, [97], 1⟩, ⟨4, [98, 105, 103], 2⟩] (by decide) (by decide)

/-- C4 (code bug evidence): inode 4 of the concrete image is a directory whose
resolved block list is exactly `[9000]`; block 9000 starts with a perfectly
decodable directory entry (`"x" → inode 3`); yet `read_dir 4` returns the
empty listing, because the block loop skips every block number greater than
8192 (`if block == 0 || block > 8192 { continue; }`), not only the zero
entries the claim (and the loop's own comment) describe. -/
theorem c4_read_dir_skips_large_block :
    (FileSystem.read_inode 4 img).1 =
      .ok ⟨0x41ED, 0, [9000], ⟨0xf30a, 1, 4, 0, 0⟩, [⟨0, 1, 0, 9000⟩]⟩ ∧
    (FileSystem.read_dir 4 img).1 = .ok [] ∧
    DirectoryEntry.parse ((List.range 1024).map (fun i => img.dev.data (9216000 + i))) =
      .ok (some (⟨3, [120], 1⟩, 12)) :=
  ⟨by decide, by decide, by decide⟩

end Ext4
